import Mathlib

/-!
Verification development for the Base server-driven UI framework
(`src/index.ts`, the revision the specification was written from, plus
`src/session_handler.ts`).

The development shallowly embeds the parts of the code the claims are
about:

* a canonical DOM tree (`Node`) standing for the documents produced by
  `DOMParser.parseFromString`, together with the serialization
  (`outerHTML` / `innerHTML`) and document-order element enumeration
  (`descend`, modelling `querySelectorAll`) used by the diff engine;
* the reconciliation engine `getBodyDifferences` with its helpers
  `uniquifyElement`, `getStepsFromBodyDownwards` (paths are carried
  explicitly, so the steps of an element are its path),
  `setCorrectListenerAttributes` and the attribute-diff block;
* the session storage operations (`Session.storage.update` /
  `Session.storage.create`) and the storage purge performed by
  `getSessionPage` when a page instance is first created;
* the full-page GET branch of `handleRequests` (status / ETag / body);
* the JSX normalizer `getTemplateHTML` with its `generateFromJSX`
  worker, errors modelled by `Except`;
* the per-connection websocket poll loop of
  `handleWebSocketConnection`, modelled as a transition system.

Elements of a document are identified by their element-child index path
from the body, which matches object identity in the source (two distinct
element objects of one parsed document always have distinct paths).
-/

/-- A DOM node as produced by the HTML parser: an element with a
(lowercase) tag name, the attribute map in declaration order, and child
nodes, or a text run.  Attribute names are unique in a parsed document. -/
inductive Node where
  | elem : String → List (String × String) → List Node → Node
  | text : String → Node

/-- The stored (lowercase) tag of an element; `""` for text runs. -/
def tagOf : Node → String
  | .elem t _ _ => t
  | .text _ => ""

/-- `Element.tagName`: the uppercase tag name. -/
def tagName (n : Node) : String :=
  String.mk ((tagOf n).data.map Char.toUpper)

/-- The attribute map of a node (`Element.attributes`, a plain
name-to-value object in the DOM library used, so iteration order is
declaration order). -/
def attrsOf : Node → List (String × String)
  | .elem _ attrs _ => attrs
  | .text _ => []

/-- Attribute lookup by name (first match, as in a name-keyed object). -/
def lookupAttr (attrs : List (String × String)) (name : String) : Option String :=
  (attrs.find? (fun a => a.1 == name)).map (fun a => a.2)

/-- `Element.className`: the value of the `class` attribute, `""` when
absent. -/
def className (n : Node) : String :=
  match lookupAttr (attrsOf n) "class" with
  | some v => v
  | none => ""

/-- The void elements that are serialized without a closing tag
(the `elementsWithNoClosingBrackets` list of the source, which is also
how the DOM library serializes them). -/
def voidElements : List String :=
  ["area", "base", "br", "col", "command", "embed", "hr", "input", "img",
   "keygen", "link", "meta", "param", "source", "track", "wbr"]

mutual
/-- `outerHTML` serialization of a node: tag, attributes in order with
double-quoted values, then the serialized children and a closing tag
unless the element is void.  Text runs serialize as their data. -/
def nodeHTML : Node → String
  | .text s => s
  | .elem t attrs cs =>
    let openTag :=
      "<" ++ t ++ attrs.foldl (fun acc a => acc ++ " " ++ a.1 ++ "=\"" ++ a.2 ++ "\"") "" ++ ">"
    if voidElements.contains t then openTag
    else openTag ++ nodesHTML cs ++ "</" ++ t ++ ">"
/-- Serialization of a list of sibling nodes. -/
def nodesHTML : List Node → String
  | [] => ""
  | c :: rest => nodeHTML c ++ nodesHTML rest
end

/-- `Element.outerHTML`. -/
def outerHTML : Node → String :=
  nodeHTML

/-- `Element.innerHTML`: the serialization of the children only. -/
def innerHTML : Node → String
  | .text _ => ""
  | .elem _ _ cs => nodesHTML cs

mutual
/-- All element descendants of a node in document (pre-)order, paired
with their element-child index path: the model of
`querySelectorAll("body *")` when applied to the body node.  Text runs
are skipped and do not consume an index, exactly as in the
element-only `children` collection the source indexes into. -/
def descend : Node → List (List Nat × Node)
  | .text _ => []
  | .elem _ _ cs => descendChildren cs 0
/-- Document-order enumeration of a sibling list, `i` being the element
index of the first entry. -/
def descendChildren : List Node → Nat → List (List Nat × Node)
  | [], _ => []
  | .text _ :: rest, i => descendChildren rest i
  | .elem t a cs :: rest, i =>
      ([i], .elem t a cs) ::
        ((descend (.elem t a cs)).map (fun pe => (i :: pe.1, pe.2))
          ++ descendChildren rest (i + 1))
end

/-- `querySelectorAll("body TAG")` on a body node: the document-order
element descendants whose (uppercase) tag name equals `tag`.  Selector
tag matching is case-insensitive, and the source always passes an
uppercase `tagName`, so comparing uppercase names is exact. -/
def sameTagElements (root : Node) (tag : String) : List (List Nat × Node) :=
  (descend root).filter (fun pe => tagName pe.2 == tag)

/-- The `i`-th element child of a sibling list (text runs skipped). -/
def childAt : List Node → Nat → Option Node
  | [], _ => none
  | .text _ :: rest, i => childAt rest i
  | .elem t a cs :: _, 0 => some (.elem t a cs)
  | .elem _ _ _ :: rest, i + 1 => childAt rest i

/-- The node reached from `root` by descending the element-child index
path `p` (the inverse of `getStepsFromBodyDownwards`). -/
def nodeAt : Node → List Nat → Option Node
  | n, [] => some n
  | .text _, _ :: _ => none
  | .elem _ _ cs, i :: p =>
    match childAt cs i with
    | some c => nodeAt c p
    | none => none

/-- The chain of nodes passed when descending `p` from `root`,
excluding `root` itself and ending with the target: the ancestor chain
of the target below the body, innermost last. -/
def chainTo : Node → List Nat → Option (List Node)
  | _, [] => some []
  | .text _, _ :: _ => none
  | .elem _ _ cs, i :: p =>
    match childAt cs i with
    | none => none
    | some c =>
      match chainTo c p with
      | none => none
      | some rest => some (c :: rest)

/-- The attribute part of the `uniquifyElement` hash for one node: the
names and values concatenated in declaration order, skipping the
`excludedAttributes` (exactly `value`). -/
def attrsHashPart (attrs : List (String × String)) : String :=
  attrs.foldl (fun acc a => if a.1 == "value" then acc else acc ++ a.1 ++ a.2) ""

/-- `uniquifyElement` of the source, keyed by the document body `root`
and the element path `p`: the uppercase tag name of the element followed
by, for the element and each strict ancestor below the body walking
upward, its `className` and its attribute hash.  The walk of the source
stops when it reaches the body, which is exactly the chain `chainTo`
produces. -/
def uniquifyElement (root : Node) (p : List Nat) : String :=
  match chainTo root p with
  | none => ""
  | some chain =>
    let selfTag :=
      match chain.getLast? with
      | some e => tagName e
      | none => tagName root
    selfTag ++ (chain.reverse.foldl (fun acc e => acc ++ className e ++ attrsHashPart (attrsOf e)) "")

/-- The strict ancestors of the element at path `p`, innermost first and
excluding the body: the positions visited by the upward `while` walks of
the source. -/
def ancestorPaths (p : List Nat) : List (List Nat) :=
  (List.range (p.length - 1)).map (fun k => p.take (p.length - 1 - k))

/-! ### `setCorrectListenerAttributes`

The source rewrites, with a global regex replace, every tag that carries
`@on` event-binding shorthand into a single inert `data-on-event`
attribute.  The regex `<[^<>]*?@on.*?>` matches from a `<` that reaches
`@on` before any other `<` or `>`, lazily through the first `>` after
the `@on`; the replacement extracts each `@on<event>=<listener>` pair
with a second regex, strips the pairs from the tag and appends one
`data-on-event="event=listener;..."` attribute before the closing `>`.
The model below scans a character list.  A bounded-recursion count is
threaded where the scan resumes behind a replaced tag; the count starts
at the length of the input and every step consumes at least one
character, so the bound is never reached. -/

/-- Identifier characters of the listener-name group `[a-zA-Z_0-9]`. -/
def identChar (c : Char) : Bool :=
  c.isAlphanum || c == '_'

/-- The single optional character allowed between `=` and the listener
name: whitespace, a double quote or a single quote. -/
def quoteOrSpace (c : Char) : Bool :=
  c.isWhitespace || c == '"' || c == Char.ofNat 39

/-- The optional closing quote after the listener name. -/
def isQuote (c : Char) : Bool :=
  c == '"' || c == Char.ofNat 39

/-- The quote characters stripped from the listener text (double quote,
single quote, backtick). -/
def strippedQuote (c : Char) : Bool :=
  c == '"' || c == Char.ofNat 39 || c == Char.ofNat 96

/-- Split at the first `=`, returning the characters before and after
it (`@on(.*?)\=` is lazy, so the event group ends at the first `=`). -/
def splitAtEq : List Char → Option (List Char × List Char)
  | [] => none
  | '=' :: r => some ([], r)
  | c :: r =>
    match splitAtEq r with
    | some p => some (c :: p.1, p.2)
    | none => none

/-- Parse the tail of one `@on(.*?)\=(\s|"|'|)([a-zA-Z_0-9]*)("|'|)`
match, the input starting right after the `@on`: returns the event
name, the listener text with quotes stripped (the source splits the
match at `=` and removes quote characters from the right part), and the
rest of the input.  Fails only when no `=` follows, which is the only
way the regex fails once `@on` was seen. -/
def attTail (l : List Char) : Option (String × String × List Char) :=
  match splitAtEq l with
  | none => none
  | some (g1, afterEq) =>
    let g2r1 :=
      match afterEq with
      | c :: r => if quoteOrSpace c then ([c], r) else (([] : List Char), afterEq)
      | [] => (([] : List Char), ([] : List Char))
    let ident := g2r1.2.takeWhile identChar
    let r2 := g2r1.2.drop ident.length
    let g4r3 :=
      match r2 with
      | c :: r => if isQuote c then ([c], r) else (([] : List Char), r2)
      | [] => (([] : List Char), ([] : List Char))
    some (String.mk g1,
      String.mk ((g2r1.1 ++ ident ++ g4r3.1).filter (fun c => !(strippedQuote c))),
      g4r3.2)

/-- Collect every `@on...=...` match inside one tag (the global inner
regex): returns the tag with the matches removed and the extracted
(event, listener) pairs in order.  The first argument bounds the
recursion and starts at the length of the input. -/
def collectAtts : Nat → List Char → List Char × List (String × String)
  | 0, l => (l, [])
  | _ + 1, [] => ([], [])
  | fuel + 1, '@' :: 'o' :: 'n' :: rest =>
    (match attTail rest with
     | some (event, listener, after) =>
       let r := collectAtts fuel after
       (r.1, (event, listener) :: r.2)
     | none =>
       let r := collectAtts fuel ('o' :: 'n' :: rest)
       ('@' :: r.1, r.2))
  | fuel + 1, c :: rest =>
    let r := collectAtts fuel rest
    (c :: r.1, r.2)

/-- Replace the first `>` of the (match-stripped) tag by the assembled
` data-on-event="..."` attribute followed by `>`. -/
def insertDataOnEvent (pairs : String) : List Char → List Char
  | [] => []
  | '>' :: rest => (" data-on-event=\"" ++ pairs ++ "\">").data ++ rest
  | c :: rest => c :: insertDataOnEvent pairs rest

/-- The per-match replacement function of `setCorrectListenerAttributes`. -/
def rewriteTag (tagChars : List Char) : List Char :=
  let r := collectAtts tagChars.length tagChars
  let pairs := String.intercalate ";" (r.2.map (fun p => p.1 ++ "=" ++ p.2))
  insertDataOnEvent pairs r.1

/-- Lazily consume characters up to and including the first `>`
(the `.*?>` part of the tag regex). -/
def consumeToGt : List Char → Option (List Char × List Char)
  | [] => none
  | '>' :: rest => some (['>'], rest)
  | c :: rest =>
    match consumeToGt rest with
    | some p => some (c :: p.1, p.2)
    | none => none

/-- Try to complete a match of `<[^<>]*?@on.*?>` at a position just
after a `<`: succeeds when `@on` is reached before any `<` or `>` and a
`>` follows later, returning the matched characters (without the
leading `<`) and the remainder. -/
def tagMatchAux : List Char → Option (List Char × List Char)
  | [] => none
  | '<' :: _ => none
  | '>' :: _ => none
  | '@' :: 'o' :: 'n' :: rest =>
    (match consumeToGt rest with
     | some p => some ('@' :: 'o' :: 'n' :: p.1, p.2)
     | none => none)
  | c :: rest =>
    match tagMatchAux rest with
    | some p => some (c :: p.1, p.2)
    | none => none

/-- The global scan of the outer regex: at each `<`, attempt a tag
match; on success emit the rewritten tag and resume after it, otherwise
keep the character.  The first argument bounds the recursion and starts
at the length of the input; every step consumes at least one character,
so the bound is never reached. -/
def rewriteScan : Nat → List Char → List Char
  | 0, l => l
  | _ + 1, [] => []
  | fuel + 1, '<' :: rest =>
    (match tagMatchAux rest with
     | some p => rewriteTag ('<' :: p.1) ++ rewriteScan fuel p.2
     | none => '<' :: rewriteScan fuel rest)
  | fuel + 1, c :: rest => c :: rewriteScan fuel rest

/-- `setCorrectListenerAttributes` of the source. -/
def setCorrectListenerAttributes (html : String) : String :=
  String.mk (rewriteScan html.data.length html.data)

/-! ### The reconciliation engine `getBodyDifferences` -/

/-- The action of one attribute change (`"SET"` or `"REMOVE"`). -/
inductive AttrAction where
  | set
  | remove
deriving DecidableEq

/-- One entry of the `changedAttributes` list of a patch. -/
structure AttrChange where
  action : AttrAction
  name : String
  value : Option String
deriving DecidableEq

/-- One element of the `transferInformation` array returned by
`getBodyDifferences`: the sibling-index path of the old-document
element to patch, the replacement markup (or `none` for an
attribute-only patch), and the attribute changes. -/
structure Patch where
  steps : List Nat
  newContent : Option String
  changedAttributes : List AttrChange
deriving DecidableEq

/-- The attribute-difference block of `getBodyDifferences`: `SET`
entries for every attribute of the new element that the old element
lacks, holds with a falsy (empty) value, or holds with a different
value; then `REMOVE` entries for every attribute of the old element
that the new element lacks or holds with a falsy (empty) value.  The
source tests object truthiness, so an empty attribute value counts as
missing on both sides. -/
def attrDiff (oldE cur : Node) : List AttrChange :=
  let oldAttrs := attrsOf oldE
  let newAttrs := attrsOf cur
  (newAttrs.filter (fun a =>
      match lookupAttr oldAttrs a.1 with
      | none => true
      | some ov => ov == "" || !(ov == a.2))).map
    (fun a => ⟨AttrAction.set, a.1, some a.2⟩)
  ++ (oldAttrs.filter (fun a =>
      match lookupAttr newAttrs a.1 with
      | none => true
      | some nv => nv == "")).map
    (fun a => ⟨AttrAction.remove, a.1, none⟩)

/-- Step 1 membership test (`isSameNode` over the tag-scoped subset of
the old document): the new element has a byte-identical `outerHTML`
among the old elements of the same tag. -/
def isInOldDocument (oldBody : Node) (e : Node) : Bool :=
  (sameTagElements oldBody (tagName e)).any (fun oldPE => outerHTML oldPE.2 == outerHTML e)

/-- Step 1 of `getBodyDifferences`: the `notAlreadyExistingElements`
list, i.e. the document-order new elements with no byte-identical
same-tag counterpart in the old document. -/
def pendingAfterStep1 (oldBody newBody : Node) : List (List Nat × Node) :=
  (descend newBody).filter (fun pe => !(isInOldDocument oldBody pe.2))

/-- Step 2 of `getBodyDifferences`: for every element of the step-1
list (the source iterates the array snapshot taken at loop entry even
when entries have been filtered away since), walk its strict ancestors
below the body; for each ancestor, every same-tag element of the new
document with an equal `uniquifyElement` hash is removed from the
pending list.  Removal is by object identity, which is path identity. -/
def removalPass (newBody : Node) (pending0 : List (List Nat × Node)) : List (List Nat × Node) :=
  pending0.foldl (fun pending pe =>
    (ancestorPaths pe.1).foldl (fun pending anc =>
      match nodeAt newBody anc with
      | some ancNode =>
        (sameTagElements newBody (tagName ancNode)).foldl (fun pending other =>
          if uniquifyElement newBody anc == uniquifyElement newBody other.1 then
            pending.filter (fun x => !(x.1 == other.1))
          else pending) pending
      | none => pending) pending) pending0

/-- Step 3 counterpart search: walk outward from the element along
`p :: ancestorPaths p`; at the first level whose `uniquifyElement` hash
matches some same-tag element of the old document (first match in
document order), return that level (path and node in the new document)
together with the old counterpart (path and node).  `none` means the
walk reached the body without a match. -/
def findCounterpart (oldBody newBody : Node) :
    List (List Nat) → Option ((List Nat × Node) × (List Nat × Node))
  | [] => none
  | q :: qs =>
    match nodeAt newBody q with
    | none => findCounterpart oldBody newBody qs
    | some cur =>
      match (sameTagElements oldBody (tagName cur)).find?
          (fun oldPE => uniquifyElement oldBody oldPE.1 == uniquifyElement newBody q) with
      | some oldPE => some ((q, cur), oldPE)
      | none => findCounterpart oldBody newBody qs

/-- Steps 4 and 5 for one surviving element, `cur` being the level at
which the counterpart search stopped (the body itself when no match was
found) and `oldSteps` / `oldE` the counterpart path and node: skip when
a patch with the same steps is already queued; emit an attribute-only
patch when the inner content is identical, a full-content patch with
the canonicalized `outerHTML` otherwise. -/
def pushPatchStep (acc : List Patch) (cur : Node) (oldSteps : List Nat) (oldE : Node) :
    List Patch :=
  if acc.any (fun t => t.steps == oldSteps) then acc
  else if innerHTML oldE == innerHTML cur then
    acc ++ [⟨oldSteps, none, attrDiff oldE cur⟩]
  else
    acc ++ [⟨oldSteps, some (setCorrectListenerAttributes (outerHTML cur)), []⟩]

/-- Step 3–5 of `getBodyDifferences` for one pending element: find the
counterpart (falling back to the old document body, in which case the
compared element is the new body and the steps are empty) and queue the
patch. -/
def step3Once (oldBody newBody : Node) (acc : List Patch) (pe : List Nat × Node) : List Patch :=
  match findCounterpart oldBody newBody (pe.1 :: ancestorPaths pe.1) with
  | some r => pushPatchStep acc r.1.2 r.2.1 r.2.2
  | none => pushPatchStep acc newBody [] oldBody

/-- `getBodyDifferences` of the source (the two arguments are the body
nodes of the parsed old and new documents): step 1 collects the changed
elements, step 2 removes elements covered by a structurally equivalent
ancestor, steps 3–5 queue one patch per surviving element in discovery
order. -/
def getBodyDifferences (oldBody newBody : Node) : List Patch :=
  (removalPass newBody (pendingAfterStep1 oldBody newBody)).foldl
    (step3Once oldBody newBody) []

/-! ### Session storage and page instantiation -/

/-- One entry of `Session._storage`: the list of page paths that have
modified the entry, the key name, and the stored value (typed `any` in
the source, a type parameter here). -/
structure StorageEntry (α : Type) where
  pagePathThatModifiedThisEntry : List String
  name : String
  value : α
deriving DecidableEq

/-- The storage purge performed by `getSessionPage` when a page
instance is created for `path`: the session storage is replaced by the
entries whose modifier-path list does not contain `path`. -/
def getSessionPageStorageFilter {α : Type} (path : String)
    (storage : List (StorageEntry α)) : List (StorageEntry α) :=
  storage.filter (fun entry => !(entry.pagePathThatModifiedThisEntry.contains path))

/-- The session state the storage accessors close over: the entry list
and `currentPagePath`. -/
structure SessionState (α : Type) where
  storage : List (StorageEntry α)
  currentPagePath : Option String
deriving DecidableEq

/-- The in-place mutation `Session.storage.update` applies to the found
entry: the value becomes the handler result, and `currentPagePath` is
appended to the modifier-path list when set and not yet present. -/
def storageEntryApply {α : Type} (currentPagePath : Option String) (handler : α → α)
    (e : StorageEntry α) : StorageEntry α :=
  ⟨match currentPagePath with
   | some p =>
     if e.pagePathThatModifiedThisEntry.contains p then e.pagePathThatModifiedThisEntry
     else e.pagePathThatModifiedThisEntry ++ [p]
   | none => e.pagePathThatModifiedThisEntry,
   e.name, handler e.value⟩

/-- Mutate the first entry named `name` (the source uses `find`, which
returns the first match, and mutates that object in place). -/
def updateFirstEntry {α : Type} (currentPagePath : Option String) (name : String)
    (handler : α → α) : List (StorageEntry α) → List (StorageEntry α)
  | [] => []
  | e :: rest =>
    if e.name == name then storageEntryApply currentPagePath handler e :: rest
    else e :: updateFirstEntry currentPagePath name handler rest

/-- `Session.storage.update`: when no entry carries `name`, return
early without touching anything; otherwise apply the handler to the
first matching entry and tag it with the current page path.  The second
component records whether the handler was invoked. -/
def sessionStorageUpdate {α : Type} (s : SessionState α) (name : String)
    (handler : α → α) : SessionState α × Bool :=
  match s.storage.find? (fun e => e.name == name) with
  | none => (s, false)
  | some _ => (⟨updateFirstEntry s.currentPagePath name handler s.storage, s.currentPagePath⟩, true)

/-- `Session.storage.create`: a no-op when the name exists, otherwise
push a fresh entry owned by the current page path (or by nobody). -/
def sessionStorageCreate {α : Type} (s : SessionState α) (name : String)
    (defaultValue : α) : SessionState α :=
  if (s.storage.find? (fun e => e.name == name)).isSome then s
  else
    ⟨s.storage ++
      [⟨match s.currentPagePath with | some p => [p] | none => [], name, defaultValue⟩],
     s.currentPagePath⟩

/-! ### The full-page GET branch of `handleRequests` -/

/-- The render bookkeeping of a `SessionPage`:
`_lastServedRawHTML` and `_lastUpdatedRawHTML` (the latter is only
assigned once a live connection polls; the empty string models the
JavaScript falsy unset value, which is also falsy when set to `""`). -/
structure PageRenderState where
  lastServedRawHTML : String
  lastUpdatedRawHTML : String
deriving DecidableEq

/-- The response assembled by the page branch of `handleRequests`. -/
structure FullPageResponse where
  status : Nat
  body : String
  etag : String
deriving DecidableEq

/-- The page branch of `handleRequests` for a registered path:
`parsedTemplate` stands for `this.parseTemplate(page)` (the full page
with head tags and the injection script) and `rawTemplate` for
`this.getTemplateHTML(page).template`; `md5` stands for
`createMd5Hash`, the external hash used only through equality of its
outputs.  The status becomes 304 when the baseline is unchanged
(`_lastUpdatedRawHTML` falsy or equal to `_lastServedRawHTML`) and the
`If-None-Match` header equals the hash of the parsed template; the
parsed template is assigned to the response body and its hash to the
`etag` header in every case, and `_lastServedRawHTML` is overwritten
with the raw template. -/
def handleFullPageGet (md5 : String → String) (parsedTemplate rawTemplate : String)
    (st : PageRenderState) (ifNoneMatch : Option String) :
    FullPageResponse × PageRenderState :=
  let notModified :=
    (st.lastUpdatedRawHTML == "" || st.lastServedRawHTML == st.lastUpdatedRawHTML)
      && (ifNoneMatch == some (md5 parsedTemplate))
  (⟨if notModified then 304 else 200, parsedTemplate, md5 parsedTemplate⟩,
   ⟨rawTemplate, st.lastUpdatedRawHTML⟩)

/-! ### The JSX normalizer `getTemplateHTML`

The declarative tree is embedded with string-typed element types
(`React.Fragment` is converted to `"div"` before emission in the
source, so a fragment is represented here by the converted element) and
with child elements already substituted for function components, which
cannot be inspected in the embedding.  Text and number children are
`textChild` leaves.  Prop values carry the shapes the generator
distinguishes: a named function (a plain handler or the
decorator-wrapped `{type, handler}` object, both of which resolve to a
function), a string, a boolean, a serializable object carried by its
JSON text, and the null/undefined value. -/

/-- A prop value of a declarative element. -/
inductive JSXVal where
  | func : String → JSXVal
  | str : String → JSXVal
  | boolv : Bool → JSXVal
  | json : String → JSXVal
  | nullv : JSXVal
deriving DecidableEq

/-- A declarative element: type, props (the `children` key is carried
separately as the child list), and children. -/
inductive JSXElement where
  | node : String → List (String × JSXVal) → List JSXElement → JSXElement
  | textChild : String → JSXElement

/-- The event-name prop test `prop.startsWith("on")`, character-wise. -/
def startsWithOn (s : String) : Bool :=
  match s.data with
  | 'o' :: 'n' :: _ => true
  | _ => false

/-- Lowercase a string character-wise (`String.toLowerCase`). -/
def lowerStr (s : String) : String :=
  String.mk (s.data.map Char.toLower)

/-- The `className` → `class` rewrite applied to inline attribute
names; the source uses `String.replace` with a string pattern, which
substitutes the first occurrence. -/
def replaceClassName (attr : String) : String :=
  String.mk (replaceClassNameChars attr.data)
where
  replaceClassNameChars : List Char → List Char
    | 'c' :: 'l' :: 'a' :: 's' :: 's' :: 'N' :: 'a' :: 'm' :: 'e' :: rest => "class".data ++ rest
    | c :: rest => c :: replaceClassNameChars rest
    | [] => []

/-- Resolve one `on*` prop: a function resolves to its own name, with
the element type and declared-children count appended when the function
name equals the prop name (the anonymous-handler case); a null or
undefined prop value makes the property access `.name` throw, which is
the `RenderError` of the specification; any other value yields the
JavaScript `undefined` interpolated as a name. -/
def resolveListener (ty : String) (childCount : Nat) (p : String × JSXVal) :
    Except String (String × String) :=
  match p.2 with
  | .func n => .ok (p.1, if n == p.1 then n ++ ty ++ toString childCount else n)
  | .nullv => .error "TypeError: Cannot read property \x27name\x27 of undefined"
  | _ => .ok (p.1, "undefined")

/-- Resolve the `on*` props of one element left to right, stopping at
the first failure, as the source loop does. -/
def resolveListeners (ty : String) (childCount : Nat) :
    List (String × JSXVal) → Except String (List (String × String))
  | [] => .ok []
  | p :: rest =>
    match resolveListener ty childCount p with
    | .error e => .error e
    | .ok r =>
      match resolveListeners ty childCount rest with
      | .error e => .error e
      | .ok rs => .ok (r :: rs)

/-- Serialize one non-listener prop: string and `true` values are
inlined as a single-quoted attribute (after the `className` rewrite);
every other value becomes the inert `data-value-for` descriptor
carrying the JSON serialization (`null` for null, `false` for false,
`undefined` for a function, since `JSON.stringify` of a function is
undefined). -/
def attrString (p : String × JSXVal) : String :=
  match p.2 with
  | .str s => " " ++ replaceClassName p.1 ++ "=\x27" ++ s ++ "\x27"
  | .boolv true => " " ++ replaceClassName p.1 ++ "=\x27true\x27"
  | .boolv false => " data-value-for=\x27" ++ p.1 ++ ";false\x27"
  | .json s => " data-value-for=\x27" ++ p.1 ++ ";" ++ s ++ "\x27"
  | .nullv => " data-value-for=\x27" ++ p.1 ++ ";null\x27"
  | .func _ => " data-value-for=\x27" ++ p.1 ++ ";undefined\x27"

mutual
/-- `generateFromJSX` of the source: resolve the event-listener props
(possibly failing), emit the `@on<event>=<name>` shorthand for each,
inline or descriptor-encode the remaining props, serialize the
children, and close the tag unless the element type is void.  Applying
the generator to a bare text value models passing a non-element to it:
`Object.keys(element.props)` throws. -/
def generateFromJSX : JSXElement → Except String String
  | .textChild _ => .error "TypeError: Cannot convert undefined or null to object"
  | .node ty props children =>
    match resolveListeners ty children.length (props.filter (fun p => startsWithOn p.1)) with
    | .error e => .error e
    | .ok resolved =>
      let listenerAttrs :=
        resolved.foldl (fun acc r => acc ++ " @" ++ lowerStr r.1 ++ "=" ++ r.2) ""
      let plainAttrs :=
        (props.filter (fun p => !(startsWithOn p.1))).foldl
          (fun acc p => acc ++ attrString p) ""
      match generateChildren children with
      | .error e => .error e
      | .ok inner =>
        .ok ("<" ++ ty ++ listenerAttrs ++ plainAttrs ++ ">" ++ inner ++
          (if voidElements.contains ty then "" else "</" ++ ty ++ ">"))
termination_by structural e => e
/-- Serialize a child list left to right: text and number children are
appended directly, element children recurse; the first failure
propagates. -/
def generateChildren : List JSXElement → Except String String
  | [] => .ok ""
  | .textChild s :: rest =>
    (match generateChildren rest with
     | .error e => .error e
     | .ok r => .ok (s ++ r))
  | .node ty props cs :: rest =>
    match generateFromJSX (.node ty props cs) with
    | .error e => .error e
    | .ok h =>
      match generateChildren rest with
      | .error e => .error e
      | .ok r => .ok (h ++ r)
termination_by structural l => l
end

/-- The render output of a page: either markup text or a declarative
tree (`page.getTemplate()`). -/
inductive TemplateSource where
  | htmlString : String → TemplateSource
  | jsx : JSXElement → TemplateSource

/-- `getTemplateHTML` of the source, restricted to its template output
(the secondary `foundFunctions` list feeds the exposure table and no
claim concerns it): a string template is returned as-is; a declarative
tree is generated inside a `try`, and on failure the description of the
error is returned as the template instead of the exception
propagating. -/
def getTemplateHTML : TemplateSource → String
  | .htmlString s => s
  | .jsx e =>
    match generateFromJSX e with
    | .ok t => t
    | .error msg => msg

/-! ### The per-connection poll loop of `handleWebSocketConnection` -/

/-- The observable state of one live connection: whether the interval
timer is still registered (`clearInterval` makes it false), whether
`closeForce` was called on the socket, and the two raw-HTML fields of
the page the loop reads and writes. -/
structure ConnState where
  timerActive : Bool
  socketClosed : Bool
  lastServedRawHTML : String
  lastUpdatedRawHTML : String
deriving DecidableEq

/-- One firing of the interval callback.  `render` stands for
`getTemplateHTML(page).template` at this tick, `diffPayload` for the
composite `JSON.stringify (getBodyDifferences (parse old) (parse new))`
over the two raw-HTML strings, and `sendOk` for the outcome of
`socket.send`.  A cleared timer never runs: the state is returned
unchanged and nothing is attempted.  When the render differs from
`_lastUpdatedRawHTML`, that field is overwritten, the update message is
built and its send attempted; on failure the interval is cleared and
the socket force-closed.  The second component is the message whose
send was attempted, if any. -/
def connTick (diffPayload : String → String → String) (render : String) (sendOk : Bool)
    (st : ConnState) : ConnState × Option String :=
  if st.timerActive then
    if render == st.lastUpdatedRawHTML then (st, none)
    else
      let msg := "update_content[t--c]" ++ diffPayload st.lastServedRawHTML render
      if sendOk then
        (⟨true, st.socketClosed, st.lastServedRawHTML, render⟩, some msg)
      else
        (⟨false, true, st.lastServedRawHTML, render⟩, some msg)
  else (st, none)

/-- Run the poll loop over a list of ticks, each given by the rendered
template at that tick and the send outcome the environment would
produce; returns the attempted message of every tick. -/
def runConn (diffPayload : String → String → String) :
    ConnState → List (String × Bool) → List (Option String)
  | _, [] => []
  | st, (r, ok) :: rest =>
    (connTick diffPayload r ok st).2 :: runConn diffPayload (connTick diffPayload r ok st).1 rest

/-! ## Theorems -/

/-- Every element of a document belongs to the tag-scoped selection for
its own tag name. -/
theorem mem_sameTagElements_self (T : Node) (pe : List Nat × Node) (h : pe ∈ descend T) :
    pe ∈ sameTagElements T (tagName pe.2) := by
  unfold sameTagElements
  exact List.mem_filter.mpr ⟨h, by simp⟩

/-- Diffing a document against itself, every new element finds a
byte-identical same-tag counterpart: itself. -/
theorem isInOldDocument_self (T : Node) (pe : List Nat × Node) (h : pe ∈ descend T) :
    isInOldDocument T pe.2 = true := by
  unfold isInOldDocument
  exact List.any_eq_true.mpr ⟨pe, mem_sameTagElements_self T pe h, by simp⟩

/-- Step 1 of a self-diff leaves no pending element. -/
theorem pendingAfterStep1_self (T : Node) : pendingAfterStep1 T T = [] := by
  unfold pendingAfterStep1
  rw [List.filter_eq_nil_iff]
  intro pe hpe
  simp [isInOldDocument_self T pe hpe]

/-- C1: for every canonical document tree, computing the body
difference of the tree against itself returns an empty patch list. -/
theorem diff_self_empty (T : Node) : getBodyDifferences T T = [] := by
  unfold getBodyDifferences
  rw [pendingAfterStep1_self]
  rfl

/-- Appending a patch whose steps clash with no queued patch preserves
pairwise distinctness of steps. -/
theorem pairwise_push (acc : List Patch) (p : Patch)
    (h : acc.Pairwise (fun a b => a.steps ≠ b.steps))
    (hn : ∀ t ∈ acc, t.steps ≠ p.steps) :
    (acc ++ [p]).Pairwise (fun a b => a.steps ≠ b.steps) := by
  rw [List.pairwise_append]
  refine ⟨h, List.pairwise_singleton _ _, ?_⟩
  intro a ha b hb
  rw [List.mem_singleton] at hb
  subst hb
  exact hn a ha

/-- The queue step of the diff preserves pairwise distinctness of
steps: it pushes only behind the duplicate-steps guard. -/
theorem pushPatchStep_pairwise (acc : List Patch) (cur : Node) (oldSteps : List Nat) (oldE : Node)
    (h : acc.Pairwise (fun a b => a.steps ≠ b.steps)) :
    (pushPatchStep acc cur oldSteps oldE).Pairwise (fun a b => a.steps ≠ b.steps) := by
  unfold pushPatchStep
  split
  · exact h
  next hany =>
    have hn : ∀ t ∈ acc, t.steps ≠ oldSteps := by
      intro t ht heq
      exact hany (List.any_eq_true.mpr ⟨t, ht, by simp [heq]⟩)
    split
    · exact pairwise_push acc _ h (by intro t ht; exact hn t ht)
    · exact pairwise_push acc _ h (by intro t ht; exact hn t ht)

/-- Processing one pending element preserves pairwise distinctness of
steps. -/
theorem step3Once_pairwise (oldBody newBody : Node) (acc : List Patch) (pe : List Nat × Node)
    (h : acc.Pairwise (fun a b => a.steps ≠ b.steps)) :
    (step3Once oldBody newBody acc pe).Pairwise (fun a b => a.steps ≠ b.steps) := by
  unfold step3Once
  split
  · exact pushPatchStep_pairwise _ _ _ _ h
  · exact pushPatchStep_pairwise _ _ _ _ h

/-- Folding the queue step over any pending list preserves pairwise
distinctness of steps. -/
theorem foldl_step3Once_pairwise (oldBody newBody : Node) (l : List (List Nat × Node)) :
    ∀ acc : List Patch, acc.Pairwise (fun a b => a.steps ≠ b.steps) →
      (l.foldl (step3Once oldBody newBody) acc).Pairwise (fun a b => a.steps ≠ b.steps) := by
  induction l with
  | nil => intro acc h; simpa using h
  | cons pe rest ih =>
    intro acc h
    rw [List.foldl_cons]
    exact ih _ (step3Once_pairwise oldBody newBody acc pe h)

/-- C5: in the patch list returned by one diff invocation no two
patches carry the same sibling-index path. -/
theorem diff_steps_pairwise_ne (oldBody newBody : Node) :
    (getBodyDifferences oldBody newBody).Pairwise (fun a b => a.steps ≠ b.steps) := by
  unfold getBodyDifferences
  exact foldl_step3Once_pairwise oldBody newBody _ [] List.Pairwise.nil

/-- C2: for old body `<div><span>A</span></div>` and new body
`<div><span>B</span></div>`, the diff returns exactly one patch, with
path `[0, 0]` and newContent `<span>B</span>`: the nested content
change is addressed at the innermost changed element. -/
theorem diff_nested_span_change :
    getBodyDifferences
      (.elem "body" [] [.elem "div" [] [.elem "span" [] [.text "A"]]])
      (.elem "body" [] [.elem "div" [] [.elem "span" [] [.text "B"]]])
      = [⟨[0, 0], some "<span>B</span>", []⟩] := by
  decide

/-- C3 counterexample: for old body `<p class="a">X</p>` and new body
`<p class="b">X</p>`, the diff does not return the single
attribute-only patch `[0] / SET class b` the claim describes. -/
theorem diff_class_change_counterexample :
    getBodyDifferences
      (.elem "body" [] [.elem "p" [("class", "a")] [.text "X"]])
      (.elem "body" [] [.elem "p" [("class", "b")] [.text "X"]])
      ≠ [⟨[0], none, [⟨AttrAction.set, "class", some "b"⟩]⟩] := by
  decide

/-- C3 amended: for old body `<p class="a">X</p>` and new body
`<p class="b">X</p>`, the diff returns exactly one patch whose path is
`[]` (the body itself) and whose newContent is the outer markup of the
whole new body, with no attribute changes: the `uniquifyElement` hash
includes the attributes of the changed element itself, so the element
fails to match its old counterpart and the patch escalates to the
body. -/
theorem diff_class_change_actual :
    getBodyDifferences
      (.elem "body" [] [.elem "p" [("class", "a")] [.text "X"]])
      (.elem "body" [] [.elem "p" [("class", "b")] [.text "X"]])
      = [⟨[], some "<body><p class=\"b\">X</p></body>", []⟩] := by
  decide

/-- C4 counterexample: changing only the `value` attribute of one
element does not produce an empty patch list. -/
theorem diff_value_change_counterexample :
    getBodyDifferences
      (.elem "body" [] [.elem "p" [("value", "1")] [.text "X"]])
      (.elem "body" [] [.elem "p" [("value", "2")] [.text "X"]])
      ≠ [] := by
  decide

/-- C4 amended: for old body `<p value="1">X</p>` and new body
`<p value="2">X</p>`, the diff returns exactly one attribute-only patch
at the element path carrying `SET value 2`: the `value` attribute is
excluded from the `uniquifyElement` hash used for counterpart matching,
but not from the emitted attribute changes. -/
theorem diff_value_change_actual :
    getBodyDifferences
      (.elem "body" [] [.elem "p" [("value", "1")] [.text "X"]])
      (.elem "body" [] [.elem "p" [("value", "2")] [.text "X"]])
      = [⟨[0], none, [⟨AttrAction.set, "value", some "2"⟩]⟩] := by
  decide

/-- C6 counterexample: a full-page GET satisfying the 304 conditions
(baseline unchanged, matching `If-None-Match`) yields status 304 but a
non-empty response body, so the response does not carry no body. -/
theorem fullPageGet_304_counterexample :
    (handleFullPageGet (fun s => s) "page" "raw" ⟨"x", ""⟩ (some "page")).1.status = 304 ∧
    (handleFullPageGet (fun s => s) "page" "raw" ⟨"x", ""⟩ (some "page")).1.body ≠ "" := by
  decide

/-- C6 amended: when the baseline render is unchanged (the
`_lastUpdatedRawHTML` field unset or equal to `_lastServedRawHTML`) and
the `If-None-Match` header equals the hash of the current parsed
template, the response status is 304; the full parsed template is
nevertheless assigned to the response body and handed to `respond`,
so the 304 response still carries the page as its body. -/
theorem fullPageGet_304_keeps_body (md5 : String → String) (parsed raw : String)
    (st : PageRenderState) (inm : Option String)
    (hbase : st.lastUpdatedRawHTML = "" ∨ st.lastServedRawHTML = st.lastUpdatedRawHTML)
    (hinm : inm = some (md5 parsed)) :
    (handleFullPageGet md5 parsed raw st inm).1.status = 304 ∧
    (handleFullPageGet md5 parsed raw st inm).1.body = parsed := by
  have hcond : ((st.lastUpdatedRawHTML == "" || st.lastServedRawHTML == st.lastUpdatedRawHTML)
      && (inm == some (md5 parsed))) = true := by
    subst hinm
    rcases hbase with h | h <;> simp [h]
  unfold handleFullPageGet
  simp [hcond]

/-- C6 witness: the amended theorem applied at a concrete state. -/
theorem fullPageGet_304_keeps_body_witness :
    (handleFullPageGet (fun s => s) "page" "raw" ⟨"x", ""⟩ (some "page")).1.status = 304 ∧
    (handleFullPageGet (fun s => s) "page" "raw" ⟨"x", ""⟩ (some "page")).1.body = "page" :=
  fullPageGet_304_keeps_body (fun s => s) "page" "raw" ⟨"x", ""⟩ (some "page") (Or.inl rfl) rfl

/-- C7 counterexample: creating a page for path `/new` with a storage
holding an entry owned exclusively by `/other` and an entry owned by
`/new`, the filter retains the foreign-owned entry and removes the
entry owned by the new path itself: the opposite of the claimed
behavior on both entries. -/
theorem storageFilter_counterexample :
    (⟨["/other"], "k", 0⟩ : StorageEntry Nat) ∈
      getSessionPageStorageFilter "/new" [⟨["/other"], "k", 0⟩, ⟨["/new"], "j", 1⟩] ∧
    (⟨["/new"], "j", 1⟩ : StorageEntry Nat) ∉
      getSessionPageStorageFilter "/new" [⟨["/other"], "k", 0⟩, ⟨["/new"], "j", 1⟩] := by
  decide

/-- C7 amended: when a page instance is first created for a path,
exactly the storage entries whose modifier-path list contains that path
are removed, and every entry not owned by the path — including entries
owned exclusively by other paths — is retained: an entry survives the
purge exactly when it was present and the new path is not among its
modifier paths. -/
theorem storageFilter_mem_iff {α : Type} (path : String) (storage : List (StorageEntry α))
    (e : StorageEntry α) :
    e ∈ getSessionPageStorageFilter path storage ↔
      e ∈ storage ∧ path ∉ e.pagePathThatModifiedThisEntry := by
  unfold getSessionPageStorageFilter
  rw [List.mem_filter]
  simp

/-- C8: when generating markup from a declarative template tree fails,
`getTemplateHTML` does not propagate the failure to its caller: the
description of the error becomes the literal template content. -/
theorem getTemplateHTML_error_degrades (e : JSXElement) (msg : String)
    (h : generateFromJSX e = .error msg) :
    getTemplateHTML (.jsx e) = msg := by
  simp only [getTemplateHTML]
  rw [h]

/-- C8 witness: a `div` whose `onclick` prop carries no resolvable
function renders to the error description. -/
theorem getTemplateHTML_error_degrades_witness :
    getTemplateHTML (.jsx (.node "div" [("onclick", .nullv)] [])) =
      "TypeError: Cannot read property \x27name\x27 of undefined" :=
  getTemplateHTML_error_degrades (.node "div" [("onclick", .nullv)] []) _ (by rfl)

/-- An inactive (cleared) poll timer never fires: the callback does not
run, nothing is sent, and the state is unchanged. -/
theorem connTick_inactive (dp : String → String → String) (r : String) (ok : Bool)
    (st : ConnState) (h : st.timerActive = false) :
    connTick dp r ok st = (st, none) := by
  unfold connTick
  simp [h]

/-- From an inactive timer state, no tick of the remaining run ever
attempts a send. -/
theorem runConn_inactive (dp : String → String → String) :
    ∀ (ticks : List (String × Bool)) (st : ConnState), st.timerActive = false →
      ∀ out ∈ runConn dp st ticks, out = none := by
  intro ticks
  induction ticks with
  | nil =>
    intro st h out hout
    simp [runConn] at hout
  | cons t rest ih =>
    intro st h out hout
    obtain ⟨r, ok⟩ := t
    simp only [runConn] at hout
    rw [connTick_inactive dp r ok st h] at hout
    rcases List.mem_cons.mp hout with h1 | h1
    · exact h1
    · exact ih st h out h1

/-- C9: a failing send on a live connection whose poll timer fires with
a changed render clears the timer, force-closes the socket, and no
further send is ever attempted in any continuation of the run. -/
theorem connTick_failure_terminates (dp : String → String → String) (r : String)
    (st : ConnState) (ticks : List (String × Bool))
    (hactive : st.timerActive = true) (hchanged : r ≠ st.lastUpdatedRawHTML) :
    (connTick dp r false st).1.timerActive = false ∧
    (connTick dp r false st).1.socketClosed = true ∧
    ∀ out ∈ runConn dp (connTick dp r false st).1 ticks, out = none := by
  have hstep : (connTick dp r false st).1 = ⟨false, true, st.lastServedRawHTML, r⟩ := by
    unfold connTick
    simp [hactive, hchanged]
  rw [hstep]
  exact ⟨rfl, rfl, runConn_inactive dp ticks _ rfl⟩

/-- C9 witness: the theorem applied to a concrete failing tick followed
by further ticks. -/
theorem connTick_failure_terminates_witness :
    (connTick (fun _ _ => "[]") "b" false ⟨true, false, "a", "a"⟩).1.timerActive = false ∧
    (connTick (fun _ _ => "[]") "b" false ⟨true, false, "a", "a"⟩).1.socketClosed = true ∧
    ∀ out ∈ runConn (fun _ _ => "[]")
        (connTick (fun _ _ => "[]") "b" false ⟨true, false, "a", "a"⟩).1
        [("c", true), ("d", false)], out = none :=
  connTick_failure_terminates (fun _ _ => "[]") "b" ⟨true, false, "a", "a"⟩
    [("c", true), ("d", false)] rfl (by decide)

/-- C10: updating a storage key that has no entry is a silent no-op:
the handler is not invoked and the session state is returned
untouched. -/
theorem sessionStorageUpdate_missing_noop {α : Type} (s : SessionState α) (name : String)
    (handler : α → α) (h : ∀ e ∈ s.storage, e.name ≠ name) :
    sessionStorageUpdate s name handler = (s, false) := by
  have hfind : s.storage.find? (fun e => e.name == name) = none := by
    rw [List.find?_eq_none]
    intro e he
    simp [h e he]
  unfold sessionStorageUpdate
  rw [hfind]

/-- C10 witness: updating the absent key `b` leaves a one-entry storage
unchanged and reports the handler as not invoked. -/
theorem sessionStorageUpdate_missing_noop_witness :
    sessionStorageUpdate (⟨[⟨[], "a", 0⟩], none⟩ : SessionState Nat) "b" (fun v => v + 1) =
      (⟨[⟨[], "a", 0⟩], none⟩, false) :=
  sessionStorageUpdate_missing_noop ⟨[⟨[], "a", 0⟩], none⟩ "b" (fun v => v + 1) (by decide)
